import Mathlib

/-!
Verification of the camply date-preset module (`camply/presets/dates.py`).

Calendar dates are modelled in two ways, matching CPython's `datetime.date`:
as year/month/day triples (`Ymd`) and as proleptic-Gregorian ordinals
(`date.toordinal`, here `toRD`: 0001-01-01 has ordinal 1).  Day arithmetic
(`timedelta(days=n)`) is addition on ordinals; `date.weekday()` (Monday = 0,
Friday = 4) is `weekdayRD`.  A pair `(start, end)` of ordinals models a
`(start_date, end_date)` tuple.  `days_ahead : Int` models a Python `int`
argument; `range(n)` over a possibly negative `n` iterates `n.toNat` times.
Python exceptions are modelled with `Except PyError`: the `ValueError`s of
`get_date_preset` and of the `date` constructor, and the `OverflowError` of
`date + timedelta` past `date.max` (ordinal `MAX_ORDINAL`); functions with no
raising operation are plain total functions.
-/

namespace Camply

/-- A year/month/day triple, the logical content of a Python `datetime.date`
(validity is tracked separately by `isValidYmd`). -/
structure Ymd where
  year : Nat
  month : Nat
  day : Nat
  deriving DecidableEq, Repr

/-- Gregorian leap-year test, as used by `datetime.date` (CPython `_is_leap`). -/
def isLeap (y : Nat) : Bool :=
  (y % 4 == 0 && y % 100 != 0) || y % 400 == 0

/-- Days in a month of a given year (CPython `_days_in_month`).  Months
outside 1..12 are given 0 days; such triples are never valid. -/
def daysInMonth (y m : Nat) : Nat :=
  match m with
  | 2 => if isLeap y then 29 else 28
  | 4 | 6 | 9 | 11 => 30
  | 1 | 3 | 5 | 7 | 8 | 10 | 12 => 31
  | _ => 0

/-- Number of days before January 1 of year `y` (CPython `_days_before_year`). -/
def daysBeforeYear (y : Nat) : Nat :=
  let n := y - 1
  n * 365 + n / 4 - n / 100 + n / 400

/-- Number of days in year `y` strictly before month `m`
(CPython `_days_before_month`). -/
def daysBeforeMonth (y m : Nat) : Nat :=
  (match m with
   | 1 => 0 | 2 => 31 | 3 => 59 | 4 => 90 | 5 => 120 | 6 => 151
   | 7 => 181 | 8 => 212 | 9 => 243 | 10 => 273 | 11 => 304 | 12 => 334
   | _ => 0)
  + (if 2 < m && isLeap y then 1 else 0)

/-- Proleptic-Gregorian ordinal of a date (CPython `date.toordinal`):
0001-01-01 is ordinal 1. -/
def toRD (d : Ymd) : Nat :=
  daysBeforeYear d.year + daysBeforeMonth d.year d.month + d.day

/-- Weekday of an ordinal, Python convention: Monday = 0, ..., Friday = 4,
Sunday = 6.  Ordinal 1 (0001-01-01) is a Monday. -/
def weekdayRD (rd : Nat) : Nat := (rd + 6) % 7

/-- Validity of a triple as a Python `datetime.date`: the `date` constructor
requires `MINYEAR = 1 <= year <= MAXYEAR = 9999`, `1 <= month <= 12` and
`1 <= day <= days_in_month(year, month)`. -/
def isValidYmd (d : Ymd) : Bool :=
  decide (1 ≤ d.year) && decide (d.year ≤ 9999)
    && decide (1 ≤ d.month) && decide (d.month ≤ 12)
    && decide (1 ≤ d.day) && decide (d.day ≤ daysInMonth d.year d.month)

/-- A possible value of `date.today()` for which `today + relativedelta(months=6)`
is still a representable date (year at most 9999), i.e. the domain on which the
module's arithmetic runs without overflow. -/
def todayOk (d : Ymd) : Bool :=
  isValidYmd d && decide (d.year ≤ 9998)

/-- Python exceptions raised by the module: the `ValueError` of
`get_date_preset` (carrying the attempted name and the list of valid names),
the `ValueError` of the `date` constructor for an invalid year/month/day
combination, and the `OverflowError` of `date + timedelta` when the result
falls outside the representable range. -/
inductive PyError where
  | unknownPreset (name : String) (available : List String)
  | invalidDate
  | overflowError
  deriving DecidableEq, Repr

/-- `BOOKING_WINDOW_MONTHS = 6` from the module. -/
def BOOKING_WINDOW_MONTHS : Nat := 6

/-- CPython's `_MAXORDINAL = 3652059`, the ordinal of `date.max`
(9999-12-31): `date + timedelta` raises `OverflowError` when the resulting
ordinal exceeds it. -/
def MAX_ORDINAL : Nat := 3652059

/-- `dateutil.relativedelta(months=n)` addition for `1 <= n <= 12` (the only
form the module uses, with `n = 6`): add `n` to the month, carry into the year
when the month exceeds 12, and clamp the day to the length of the resulting
month (`day = min(calendar.monthrange(year, month)[1], dt.day)`). -/
def addMonths (d : Ymd) (months : Nat) : Ymd :=
  let m0 := d.month + months
  let y := if 12 < m0 then d.year + 1 else d.year
  let m := if 12 < m0 then m0 - 12 else m0
  { year := y, month := m, day := min (daysInMonth y m) d.day }

/-- `get_booking_window_end()`: `date.today() + relativedelta(months=BOOKING_WINDOW_MONTHS)`.
`today` is passed explicitly since the embedding has no clock. -/
def get_booking_window_end (today : Ymd) : Ymd :=
  addMonths today BOOKING_WINDOW_MONTHS

/-- `get_newly_available_dates(days_ahead=7)`: one single-night pair
`(booking_end + i, booking_end + i + 1)` for each `i in range(days_ahead)`.
Both `booking_end + timedelta(days=i)` and the checkout
`target + timedelta(days=1)` raise `OverflowError` past `date.max`; since
`i` ascends, the loop raises exactly when it runs at least once and its last
checkout ordinal `booking_end + days_ahead` exceeds `MAX_ORDINAL` (nothing is
returned then: the exception discards the partial list).  The default
argument in the source is 7 (used by the preset registry). -/
def get_newly_available_dates (today : Ymd) (days_ahead : Int) :
    Except PyError (List (Nat × Nat)) :=
  let booking_end := toRD (get_booking_window_end today)
  if 0 < days_ahead.toNat ∧ MAX_ORDINAL < booking_end + days_ahead.toNat then
    Except.error PyError.overflowError
  else
    Except.ok ((List.range days_ahead.toNat).map
      (fun i => (booking_end + i, booking_end + i + 1)))

/-- `get_next_release_dates(days_ahead=14)`: same loop as
`get_newly_available_dates` (overflow path included), default argument 14. -/
def get_next_release_dates (today : Ymd) (days_ahead : Int) :
    Except PyError (List (Nat × Nat)) :=
  let booking_end := toRD (get_booking_window_end today)
  if 0 < days_ahead.toNat ∧ MAX_ORDINAL < booking_end + days_ahead.toNat then
    Except.error PyError.overflowError
  else
    Except.ok ((List.range days_ahead.toNat).map
      (fun i => (booking_end + i, booking_end + i + 1)))

/-- The `year` resolution at the top of `get_summer_weekends`:
`year = today.year if today.month < 10 else today.year + 1` when `year` is
not supplied. -/
def resolveYear (today : Ymd) (yr : Option Nat) : Nat :=
  match yr with
  | some y => y
  | none => if today.month < 10 then today.year else today.year + 1

/-- The `days_to_friday` computation inside the weekend loop:
`days_to_friday = (4 - current.weekday()) % 7`, then the (unsatisfiable)
special case `if days_to_friday == 0 and current.weekday() != 4:
days_to_friday = 7`.  Python `%` on ints with a positive modulus agrees with
`Int.emod`. -/
def daysToFriday (current : Nat) : Nat :=
  (let dtf0 : Int := (4 - (weekdayRD current : Int)) % 7
   if dtf0 == 0 && (weekdayRD current != 4) then (7 : Int) else dtf0).toNat

/-- The `while current < end` loop of `get_summer_weekends`, over ordinals.
`fuel` bounds the number of iterations; the caller passes `endRD + 1`, which
can never be exhausted since `current` grows by at least 7 per iteration
(`daysToFriday current < 7`, then `+ 7`), so the clause for fuel 0 is
unreachable from `get_summer_weekends`. -/
def scanWeekends (endRD bwe : Nat) (only_bookable : Bool) :
    Nat → Nat → List (Nat × Nat)
  | 0, _ => []
  | fuel + 1, current =>
    if current < endRD then
      let friday := current + daysToFriday current
      let rest := scanWeekends endRD bwe only_bookable fuel (friday + 7)
      if friday < endRD then
        if only_bookable then
          if friday ≤ bwe then (friday, friday + 3) :: rest else rest
        else
          (friday, friday + 3) :: rest
      else rest
    else []

/-- `get_summer_weekends(year=None, only_bookable=True, end_month=9, end_day=30)`:
resolve the year, compute the booking-window end, scan Fridays from
`date(year, 6, 1)` (exclusive upper bound `date(year, end_month, end_day)`),
pair each kept Friday with `friday + timedelta(days=3)` (Monday checkout).
The two `date(...)` constructor calls raise `ValueError` when the triple is
invalid, modelled by the validity guard. -/
def get_summer_weekends (today : Ymd) (yr : Option Nat) (only_bookable : Bool)
    (end_month end_day : Nat) : Except PyError (List (Nat × Nat)) :=
  let year := resolveYear today yr
  let booking_window_end := toRD (get_booking_window_end today)
  if isValidYmd ⟨year, 6, 1⟩ && isValidYmd ⟨year, end_month, end_day⟩ then
    let current := toRD ⟨year, 6, 1⟩
    let endRD := toRD ⟨year, end_month, end_day⟩
    Except.ok (scanWeekends endRD booking_window_end only_bookable (endRD + 1) current)
  else
    Except.error PyError.invalidDate

/-- The `DATE_PRESETS` registry: insertion-ordered name/generator pairs.
Each generator is the module function applied to its Python default
arguments (`get_summer_weekends()` with all defaults,
`get_newly_available_dates(7)`, `get_next_release_dates(14)`). -/
def DATE_PRESETS : List (String × (Ymd → Except PyError (List (Nat × Nat)))) :=
  [("summer_weekends", fun today => get_summer_weekends today none true 9 30),
   ("newly_available", fun today => get_newly_available_dates today 7),
   ("next_releases", fun today => get_next_release_dates today 14)]

/-- The name normalization of `get_date_preset`:
`name.lower().replace("-", "_").replace(" ", "_")`, at the character level
(each replaced pattern is a single character, so each `replace` is a
character map; `.lower()` on the ASCII names involved is `Char.toLower`). -/
def normalizeName (name : String) : String :=
  ⟨((name.data.map Char.toLower).map (fun c => if c = '-' then '_' else c)).map
      (fun c => if c = ' ' then '_' else c)⟩

/-- `list_date_presets()`: `list(DATE_PRESETS.keys())`. -/
def list_date_presets : List String :=
  DATE_PRESETS.map (fun kv => kv.1)

/-- `get_date_preset(name)`: normalize, look up, raise
`ValueError(f"Unknown date preset: '{name}'. Available presets: {available}")`
when absent, otherwise call the registered generator with no arguments. -/
def get_date_preset (today : Ymd) (name : String) :
    Except PyError (List (Nat × Nat)) :=
  let normalized := normalizeName name
  match DATE_PRESETS.find? (fun kv => kv.1 == normalized) with
  | some kv => kv.2 today
  | none => Except.error (PyError.unknownPreset name list_date_presets)

/-! ### Helper lemmas about the Friday-offset computation and the scan loop -/

/-- The offset to the next Friday, written without `Int`: for any ordinal the
two-step Python computation collapses to `(11 - (current + 6) % 7) % 7`
(the special-case branch never fires, since `(4 - w) % 7 = 0` exactly
when `w = 4`). -/
theorem daysToFriday_eq (c : Nat) : daysToFriday c = (11 - (c + 6) % 7) % 7 := by
  unfold daysToFriday weekdayRD
  have hw : (c + 6) % 7 < 7 := Nat.mod_lt _ (by omega)
  revert hw
  generalize (c + 6) % 7 = w
  intro hw
  interval_cases w <;> decide

/-- The Friday offset is less than a week. -/
theorem daysToFriday_lt (c : Nat) : daysToFriday c < 7 := by
  rw [daysToFriday_eq]; omega

/-- Advancing by the Friday offset lands on a Friday (weekday 4). -/
theorem weekdayRD_add_daysToFriday (c : Nat) :
    weekdayRD (c + daysToFriday c) = 4 := by
  rw [daysToFriday_eq]; unfold weekdayRD; omega

/-- From a Friday the offset is zero: the special-case branch of the source
never turns it into 7. -/
theorem daysToFriday_of_friday (c : Nat) (h : weekdayRD c = 4) :
    daysToFriday c = 0 := by
  unfold weekdayRD at h
  rw [daysToFriday_eq]
  omega

/-- One unfolding step of the scan loop, with the `let`-bindings substituted. -/
theorem scanWeekends_succ (e b : Nat) (ob : Bool) (fuel c : Nat) :
    scanWeekends e b ob (fuel + 1) c
      = if c < e then
          if c + daysToFriday c < e then
            if ob then
              if c + daysToFriday c ≤ b then
                (c + daysToFriday c, c + daysToFriday c + 3)
                  :: scanWeekends e b ob fuel (c + daysToFriday c + 7)
              else scanWeekends e b ob fuel (c + daysToFriday c + 7)
            else
              (c + daysToFriday c, c + daysToFriday c + 3)
                :: scanWeekends e b ob fuel (c + daysToFriday c + 7)
          else scanWeekends e b ob fuel (c + daysToFriday c + 7)
        else [] := rfl

/-- Every pair produced by the scan loop starts on a Friday strictly before
the end bound, spans exactly three days, and, when `only_bookable` is set,
starts no later than the booking-window end. -/
theorem scanWeekends_mem (e b : Nat) (ob : Bool) :
    ∀ (fuel c : Nat) (p : Nat × Nat), p ∈ scanWeekends e b ob fuel c →
      weekdayRD p.1 = 4 ∧ p.2 = p.1 + 3 ∧ p.1 < e ∧
        (ob = true → p.1 ≤ b) := by
  intro fuel
  induction fuel with
  | zero => intro c p hp; simp [scanWeekends] at hp
  | succ n ih =>
    intro c p hp
    simp only [scanWeekends] at hp
    by_cases hce : c < e
    · rw [if_pos hce] at hp
      by_cases hfe : c + daysToFriday c < e
      · rw [if_pos hfe] at hp
        cases ob with
        | false =>
          rw [if_neg (by simp)] at hp
          rcases List.mem_cons.mp hp with hpe | hpr
          · subst hpe
            exact ⟨weekdayRD_add_daysToFriday c, rfl, hfe, by simp⟩
          · exact ih _ _ hpr
        | true =>
          rw [if_pos (by trivial)] at hp
          by_cases hfb : c + daysToFriday c ≤ b
          · rw [if_pos hfb] at hp
            rcases List.mem_cons.mp hp with hpe | hpr
            · subst hpe
              exact ⟨weekdayRD_add_daysToFriday c, rfl, hfe, fun _ => hfb⟩
            · exact ih _ _ hpr
          · rw [if_neg hfb] at hp
            exact ih _ _ hp
      · rw [if_neg hfe] at hp
        exact ih _ _ hp
    · rw [if_neg hce] at hp
      simp at hp

/-- The `only_bookable` run of the scan loop is exactly the unrestricted run
filtered by `friday ≤ booking-window-end`. -/
theorem scanWeekends_true_eq_filter (e b : Nat) :
    ∀ (fuel c : Nat), scanWeekends e b true fuel c
      = (scanWeekends e b false fuel c).filter (fun p => decide (p.1 ≤ b)) := by
  intro fuel
  induction fuel with
  | zero => intro c; rfl
  | succ n ih =>
    intro c
    simp only [scanWeekends]
    by_cases hce : c < e
    · rw [if_pos hce, if_pos hce]
      by_cases hfe : c + daysToFriday c < e
      · rw [if_pos hfe, if_pos hfe, if_pos (by trivial),
          if_neg (show ¬(false = true) by simp)]
        by_cases hfb : c + daysToFriday c ≤ b
        · rw [if_pos hfb, ih]
          simp [List.filter_cons, hfb]
        · rw [if_neg hfb, ih]
          simp [List.filter_cons, hfb]
      · rw [if_neg hfe, if_neg hfe]
        exact ih _
    · rw [if_neg hce, if_neg hce]
      rfl

/-- With `only_bookable = false` the scan loop never reads the
booking-window end. -/
theorem scanWeekends_false_bwe_irrel (e b1 b2 : Nat) :
    ∀ (fuel c : Nat),
      scanWeekends e b1 false fuel c = scanWeekends e b2 false fuel c := by
  intro fuel
  induction fuel with
  | zero => intro c; rfl
  | succ n ih =>
    intro c
    simp only [scanWeekends]
    by_cases hce : c < e
    · rw [if_pos hce, if_pos hce]
      by_cases hfe : c + daysToFriday c < e
      · rw [if_pos hfe, if_pos hfe, if_neg (by simp), if_neg (by simp), ih]
      · rw [if_neg hfe, if_neg hfe]
        exact ih _
    · rw [if_neg hce, if_neg hce]

/-- September 30 of any year is 121 days after June 1 of that year (the gap
does not cross February, so it is leap-independent). -/
theorem toRD_sep30 (y : Nat) : toRD ⟨y, 9, 30⟩ = toRD ⟨y, 6, 1⟩ + 121 := by
  unfold toRD daysBeforeMonth
  cases h : isLeap y <;> simp [h]

/-- Every real month has at least 28 days. -/
theorem daysInMonth_ge (y m : Nat) (h1 : 1 ≤ m) (h2 : m ≤ 12) :
    28 ≤ daysInMonth y m := by
  interval_cases m <;> simp only [daysInMonth] <;> (try split) <;> omega

/-- No month has more than 31 days. -/
theorem daysInMonth_le (y m : Nat) : daysInMonth y m ≤ 31 := by
  unfold daysInMonth
  split <;> first | omega | (split <;> omega)

/-- The days-before-month table tops out at 334 + 1 leap day. -/
theorem daysBeforeMonth_le (y m : Nat) (h : m ≤ 12) :
    daysBeforeMonth y m ≤ 335 := by
  unfold daysBeforeMonth
  interval_cases m <;> (repeat' split) <;> omega

/-- Through June the days-before-month table tops out at 151 + 1 leap day. -/
theorem daysBeforeMonth_le_june (y m : Nat) (h : m ≤ 6) :
    daysBeforeMonth y m ≤ 152 := by
  unfold daysBeforeMonth
  interval_cases m <;> (repeat' split) <;> omega

/-- Under a sane clock (year at most 9998) the booking-window end sits far
enough below `date.max` that even a fortnight of releases stays
representable: when its year is 9999 the month carry keeps the month at most
6. -/
theorem toRD_gbwe_le (t : Ymd) (ht : todayOk t = true) :
    toRD (get_booking_window_end t) + 14 ≤ MAX_ORDINAL := by
  simp only [todayOk, isValidYmd, Bool.and_eq_true, decide_eq_true_eq] at ht
  simp only [get_booking_window_end, addMonths, BOOKING_WINDOW_MONTHS, toRD,
    MAX_ORDINAL]
  by_cases h12 : 12 < t.month + 6
  · simp only [if_pos h12]
    have hby : daysBeforeYear (t.year + 1) ≤ 3651700 := by
      simp only [daysBeforeYear]; omega
    have hbm : daysBeforeMonth (t.year + 1) (t.month + 6 - 12) ≤ 152 :=
      daysBeforeMonth_le_june _ _ (by omega)
    have hdm : daysInMonth (t.year + 1) (t.month + 6 - 12) ≤ 31 :=
      daysInMonth_le _ _
    omega
  · simp only [if_neg h12]
    have hby : daysBeforeYear t.year ≤ 3651331 := by
      simp only [daysBeforeYear]; omega
    have hbm : daysBeforeMonth t.year (t.month + 6) ≤ 335 :=
      daysBeforeMonth_le _ _ (by omega)
    have hdm : daysInMonth t.year (t.month + 6) ≤ 31 := daysInMonth_le _ _
    omega

/-! ### Claims -/

/-- Claim C1 counterexample: at today = 2024-01-15 the nonnegative argument
`daysAhead = 3000000` makes both generators raise `OverflowError` (the
window runs past `date.max`): no sequence of 3000000 pairs is returned, so
the unbounded claim fails. -/
theorem c1_counterexample :
    ((0 : Int) ≤ 3000000) ∧
    get_newly_available_dates ⟨2024, 1, 15⟩ 3000000
        = Except.error PyError.overflowError ∧
    get_next_release_dates ⟨2024, 1, 15⟩ 3000000
        = Except.error PyError.overflowError :=
  ⟨by decide, rfl, rfl⟩

/-- Claim C1 (amended): for every `daysAhead >= 0` whose release window stays
within Python's date range (`windowEnd + daysAhead <= date.max.toordinal()`),
both `get_newly_available_dates` and `get_next_release_dates` return exactly
`daysAhead` pairs, the `i`-th being
`(windowEnd + i days, windowEnd + i + 1 days)`: single-night stays whose
start dates ascend by exactly one day; past that bound (with at least one
iteration) both raise `OverflowError` instead. -/
theorem c1_release_pairs (t : Ymd) (d : Int)
    (ht : todayOk t = true) (hd : 0 ≤ d) :
    (toRD (get_booking_window_end t) + d.toNat ≤ MAX_ORDINAL →
      ∃ l, get_newly_available_dates t d = Except.ok l ∧
        get_next_release_dates t d = Except.ok l ∧
        l.length = d.toNat ∧
        ∀ i : Nat, i < d.toNat →
          l[i]? = some (toRD (get_booking_window_end t) + i,
              toRD (get_booking_window_end t) + i + 1)) ∧
    (0 < d.toNat → MAX_ORDINAL < toRD (get_booking_window_end t) + d.toNat →
      get_newly_available_dates t d = Except.error PyError.overflowError ∧
      get_next_release_dates t d = Except.error PyError.overflowError) := by
  constructor
  · intro hov
    refine ⟨(List.range d.toNat).map
        (fun i => (toRD (get_booking_window_end t) + i,
          toRD (get_booking_window_end t) + i + 1)), ?_, ?_, by simp, ?_⟩
    · simp only [get_newly_available_dates]
      rw [if_neg (by omega)]
    · simp only [get_next_release_dates]
      rw [if_neg (by omega)]
    · intro i hi
      simp [List.getElem?_range hi]
  · intro h1 h2
    constructor
    · simp only [get_newly_available_dates]
      rw [if_pos ⟨h1, h2⟩]
    · simp only [get_next_release_dates]
      rw [if_pos ⟨h1, h2⟩]

/-- Claim C1 witness: the spec scenario today = 2024-01-15 with
`daysAhead = 3`. -/
theorem c1_witness :
    todayOk ⟨2024, 1, 15⟩ = true ∧ ((0 : Int) ≤ 3) ∧
    ((toRD (get_booking_window_end ⟨2024, 1, 15⟩) + (3 : Int).toNat
          ≤ MAX_ORDINAL →
        ∃ l, get_newly_available_dates ⟨2024, 1, 15⟩ 3 = Except.ok l ∧
          get_next_release_dates ⟨2024, 1, 15⟩ 3 = Except.ok l ∧
          l.length = (3 : Int).toNat ∧
          ∀ i : Nat, i < (3 : Int).toNat →
            l[i]? = some (toRD (get_booking_window_end ⟨2024, 1, 15⟩) + i,
                toRD (get_booking_window_end ⟨2024, 1, 15⟩) + i + 1)) ∧
      (0 < (3 : Int).toNat →
        MAX_ORDINAL < toRD (get_booking_window_end ⟨2024, 1, 15⟩)
            + (3 : Int).toNat →
        get_newly_available_dates ⟨2024, 1, 15⟩ 3
            = Except.error PyError.overflowError ∧
        get_next_release_dates ⟨2024, 1, 15⟩ 3
            = Except.error PyError.overflowError)) :=
  ⟨by decide, by decide, c1_release_pairs ⟨2024, 1, 15⟩ 3 (by decide) (by decide)⟩

/-- Claim C2: `get_booking_window_end` adds exactly six calendar months
(`year' * 12 + month' = year * 12 + month + 6`), keeps the day when it fits
the target month and otherwise clamps it to the last valid day, always yields
a valid date, and on the spec examples maps 2024-01-31 to 2024-07-31,
2024-01-30 to 2024-07-30, 2024-08-31 to 2025-02-28 (clamping), and
2024-01-15 to a date 182 (not 180) days later. -/
theorem c2_booking_window_end (t : Ymd) (ht : todayOk t = true) :
    ((get_booking_window_end t).year * 12 + (get_booking_window_end t).month
        = t.year * 12 + t.month + 6) ∧
    (t.day ≤ daysInMonth (get_booking_window_end t).year
          (get_booking_window_end t).month →
        (get_booking_window_end t).day = t.day) ∧
    (daysInMonth (get_booking_window_end t).year
          (get_booking_window_end t).month < t.day →
        (get_booking_window_end t).day
          = daysInMonth (get_booking_window_end t).year
              (get_booking_window_end t).month) ∧
    isValidYmd (get_booking_window_end t) = true ∧
    get_booking_window_end ⟨2024, 1, 31⟩ = ⟨2024, 7, 31⟩ ∧
    get_booking_window_end ⟨2024, 1, 30⟩ = ⟨2024, 7, 30⟩ ∧
    get_booking_window_end ⟨2024, 8, 31⟩ = ⟨2025, 2, 28⟩ ∧
    toRD (get_booking_window_end ⟨2024, 1, 15⟩) = toRD ⟨2024, 1, 15⟩ + 182 := by
  simp only [todayOk, isValidYmd, Bool.and_eq_true, decide_eq_true_eq] at ht
  simp only [get_booking_window_end, addMonths, BOOKING_WINDOW_MONTHS]
  refine ⟨?_, ?_, ?_, ?_, by decide, by decide, by decide, by decide⟩
  · by_cases h12 : 12 < t.month + 6 <;> simp [h12] <;> omega
  · by_cases h12 : 12 < t.month + 6 <;> simp [h12] <;> omega
  · by_cases h12 : 12 < t.month + 6 <;> simp [h12] <;> omega
  · by_cases h12 : 12 < t.month + 6 <;> simp only [h12, if_true, if_false,
      isValidYmd, Bool.and_eq_true, decide_eq_true_eq, and_assoc] <;>
      [have hge := daysInMonth_ge (t.year + 1) (t.month + 6 - 12)
        (by omega) (by omega);
       have hge := daysInMonth_ge t.year (t.month + 6) (by omega) (by omega)] <;>
      refine ⟨by omega, by omega, by omega, by omega, by omega, by omega⟩

/-- Claim C2 witness: the clamping instance today = 2024-08-31. -/
theorem c2_witness :
    todayOk ⟨2024, 8, 31⟩ = true ∧
    ((get_booking_window_end ⟨2024, 8, 31⟩).year * 12
        + (get_booking_window_end ⟨2024, 8, 31⟩).month
      = (⟨2024, 8, 31⟩ : Ymd).year * 12 + (⟨2024, 8, 31⟩ : Ymd).month + 6) :=
  ⟨by decide, (c2_booking_window_end ⟨2024, 8, 31⟩ (by decide)).1⟩

/-- Claim C5: `get_newly_available_dates` and `get_next_release_dates`
compute the same function of the current date and `daysAhead` (raising
identically on the overflow path); the registry invokes them with their
respective defaults 7 and 14. -/
theorem c5_identical_algorithm (t : Ymd) (d : Int) :
    get_newly_available_dates t d = get_next_release_dates t d ∧
    get_date_preset t "newly_available" = get_newly_available_dates t 7 ∧
    get_date_preset t "next_releases" = get_next_release_dates t 14 :=
  ⟨rfl, rfl, rfl⟩

/-- Claim C7: lookup normalizes case and separators, so the three spellings
of the summer preset resolve identically for every current date. -/
theorem c7_normalized_lookup (t : Ymd) :
    get_date_preset t "Summer-Weekends" = get_date_preset t "summer_weekends" ∧
    get_date_preset t "SUMMER WEEKENDS" = get_date_preset t "summer_weekends" :=
  ⟨rfl, rfl⟩

/-- Claim C8 counterexample: at a concrete current date and negative
`daysAhead`, both generators silently return the empty list instead of
failing: `range` of a negative bound is empty and no validation exists. -/
theorem c8_counterexample :
    get_newly_available_dates ⟨2024, 1, 15⟩ (-5) = Except.ok [] ∧
    get_next_release_dates ⟨2024, 1, 15⟩ (-5) = Except.ok [] :=
  ⟨rfl, rfl⟩

/-- Claim C8 (amended): for every `daysAhead <= 0` (negative included) both
generators return the empty sequence; no error condition is signalled. -/
theorem c8_amended_nonpositive (t : Ymd) (d : Int) (hd : d ≤ 0) :
    get_newly_available_dates t d = Except.ok [] ∧
    get_next_release_dates t d = Except.ok [] := by
  have h0 : d.toNat = 0 := by omega
  constructor <;>
    · simp only [get_newly_available_dates, get_next_release_dates, h0]
      rw [if_neg (by omega)]
      simp

/-- Claim C8 witness: `daysAhead = -1` at a concrete current date. -/
theorem c8_witness :
    ((-1 : Int) ≤ 0) ∧
    (get_newly_available_dates ⟨2024, 1, 15⟩ (-1) = Except.ok [] ∧
      get_next_release_dates ⟨2024, 1, 15⟩ (-1) = Except.ok []) :=
  ⟨by decide, c8_amended_nonpositive ⟨2024, 1, 15⟩ (-1) (by decide)⟩

/-- Claim C9: with an explicit year and `only_bookable = false`,
`get_summer_weekends` does not depend on the current date; in particular the
full June-September 2025 range has a fixed count of 17 weekends. -/
theorem c9_independent_of_today (t1 t2 : Ymd) (y em ed : Nat) :
    get_summer_weekends t1 (some y) false em ed
      = get_summer_weekends t2 (some y) false em ed ∧
    (get_summer_weekends ⟨2024, 1, 15⟩ (some 2025) false 9 30).map List.length
      = Except.ok 17 := by
  constructor
  · simp only [get_summer_weekends, resolveYear]
    by_cases hval : (isValidYmd ⟨y, 6, 1⟩ && isValidYmd ⟨y, em, ed⟩) = true
    · rw [if_pos hval, if_pos hval]
      exact congrArg Except.ok (scanWeekends_false_bwe_irrel _ _ _ _ _)
    · rw [if_neg hval, if_neg hval]
  · rfl

/-- Claim C3: every pair emitted by `get_summer_weekends` starts on a Friday,
ends three days later (Monday checkout), starts strictly before
`date(year, endMonth, endDay)` (a Friday equal to the bound is excluded), and
with `onlyBookable` starts no later than the booking-window end; moreover a
pair of the unrestricted run whose Friday is at most the booking-window end
(equality included) is kept by the `onlyBookable` run. -/
theorem c3_weekend_pairs :
    (∀ (t : Ymd) (yr : Option Nat) (ob : Bool) (em ed : Nat)
        (l : List (Nat × Nat)) (p : Nat × Nat),
      get_summer_weekends t yr ob em ed = Except.ok l → p ∈ l →
        weekdayRD p.1 = 4 ∧ p.2 = p.1 + 3 ∧
          p.1 < toRD ⟨resolveYear t yr, em, ed⟩ ∧
          (ob = true → p.1 ≤ toRD (get_booking_window_end t))) ∧
    (∀ (t : Ymd) (yr : Option Nat) (em ed : Nat)
        (l l2 : List (Nat × Nat)) (p : Nat × Nat),
      get_summer_weekends t yr false em ed = Except.ok l →
      get_summer_weekends t yr true em ed = Except.ok l2 →
      p ∈ l → p.1 ≤ toRD (get_booking_window_end t) → p ∈ l2) := by
  constructor
  · intro t yr ob em ed l p h hp
    simp only [get_summer_weekends] at h
    by_cases hval : (isValidYmd ⟨resolveYear t yr, 6, 1⟩
        && isValidYmd ⟨resolveYear t yr, em, ed⟩) = true
    · rw [if_pos hval] at h
      injection h with h
      subst h
      exact scanWeekends_mem _ _ _ _ _ p hp
    · rw [if_neg hval] at h
      simp at h
  · intro t yr em ed l l2 p hF hT hp hpb
    simp only [get_summer_weekends] at hF hT
    by_cases hval : (isValidYmd ⟨resolveYear t yr, 6, 1⟩
        && isValidYmd ⟨resolveYear t yr, em, ed⟩) = true
    · rw [if_pos hval] at hF hT
      injection hF with hF
      injection hT with hT
      subst hF
      subst hT
      rw [scanWeekends_true_eq_filter]
      exact List.mem_filter.mpr ⟨hp, by simpa using hpb⟩
    · rw [if_neg hval] at hF
      simp at hF

/-- Claim C3 witness: today = 2024-01-15, year 2024, `onlyBookable = true`;
the pair starting Friday 2024-06-07 is emitted and has the stated shape. -/
theorem c3_witness :
    (get_summer_weekends ⟨2024, 1, 15⟩ (some 2024) true 9 30
        = Except.ok ((get_summer_weekends ⟨2024, 1, 15⟩
            (some 2024) true 9 30).toOption.getD [])) ∧
    ((toRD ⟨2024, 6, 7⟩, toRD ⟨2024, 6, 10⟩)
        ∈ (get_summer_weekends ⟨2024, 1, 15⟩
            (some 2024) true 9 30).toOption.getD []) ∧
    (weekdayRD (toRD ⟨2024, 6, 7⟩, toRD ⟨2024, 6, 10⟩).1 = 4 ∧
      (toRD ⟨2024, 6, 7⟩, toRD ⟨2024, 6, 10⟩).2
          = (toRD ⟨2024, 6, 7⟩, toRD ⟨2024, 6, 10⟩).1 + 3 ∧
      (toRD ⟨2024, 6, 7⟩, toRD ⟨2024, 6, 10⟩).1
          < toRD ⟨resolveYear ⟨2024, 1, 15⟩ (some 2024), 9, 30⟩ ∧
      (true = true → (toRD ⟨2024, 6, 7⟩, toRD ⟨2024, 6, 10⟩).1
          ≤ toRD (get_booking_window_end ⟨2024, 1, 15⟩))) :=
  ⟨rfl, by decide,
    c3_weekend_pairs.1 ⟨2024, 1, 15⟩ (some 2024) true 9 30 _
      (toRD ⟨2024, 6, 7⟩, toRD ⟨2024, 6, 10⟩) rfl (by decide)⟩

/-- Claim C4 counterexample: June 1, 2018 was a Friday, yet the first pair
emitted for 2018 starts on June 1 (ordinal of 2018-06-01), not June 8: the
scan does not skip the scan start when it is itself a Friday, because the
special-case guard `days_to_friday == 0 and current.weekday() != 4` can
never hold. -/
theorem c4_counterexample :
    weekdayRD (toRD ⟨2018, 6, 1⟩) = 4 ∧
    (get_summer_weekends ⟨2018, 1, 15⟩ (some 2018) false 9 30).toOption.bind
        List.head?
      = some (toRD ⟨2018, 6, 1⟩, toRD ⟨2018, 6, 1⟩ + 3) ∧
    toRD ⟨2018, 6, 1⟩ ≠ toRD ⟨2018, 6, 8⟩ := by
  refine ⟨by decide, by decide, by decide⟩

/-- Claim C4 (amended): when June 1 of the requested year is itself a Friday,
that day IS emitted as the first weekend start (the skip-to-next-Friday guard
in the source is dead code: its condition is unsatisfiable). -/
theorem c4_amended (t : Ymd) (y : Nat)
    (hy : isValidYmd ⟨y, 6, 1⟩ = true)
    (hf : weekdayRD (toRD ⟨y, 6, 1⟩) = 4) :
    ∃ l, get_summer_weekends t (some y) false 9 30 = Except.ok l ∧
      l.head? = some (toRD ⟨y, 6, 1⟩, toRD ⟨y, 6, 1⟩ + 3) := by
  have h30 : daysInMonth y 9 = 30 := rfl
  have hy30 : isValidYmd ⟨y, 9, 30⟩ = true := by
    simp only [isValidYmd, Bool.and_eq_true, decide_eq_true_eq] at hy ⊢
    omega
  have hlt : toRD ⟨y, 6, 1⟩ < toRD ⟨y, 9, 30⟩ := by
    rw [toRD_sep30]; omega
  simp only [get_summer_weekends, resolveYear]
  rw [if_pos (by rw [hy, hy30]; rfl)]
  refine ⟨_, rfl, ?_⟩
  rw [scanWeekends_succ, daysToFriday_of_friday _ hf]
  simp only [Nat.add_zero]
  rw [if_pos hlt, if_pos hlt, if_neg (show ¬(false = true) by simp)]
  rfl

/-- Claim C4 witness: year 2018 (June 1, 2018 was a Friday). -/
theorem c4_witness :
    isValidYmd ⟨2018, 6, 1⟩ = true ∧
    weekdayRD (toRD ⟨2018, 6, 1⟩) = 4 ∧
    ∃ l, get_summer_weekends ⟨2018, 1, 15⟩ (some 2018) false 9 30
          = Except.ok l ∧
        l.head? = some (toRD ⟨2018, 6, 1⟩, toRD ⟨2018, 6, 1⟩ + 3) :=
  ⟨by decide, by decide, c4_amended ⟨2018, 1, 15⟩ 2018 (by decide) (by decide)⟩

/-- Claim C6 counterexample: `get_summer_weekends` with end bound
September 31 raises the `date` constructor's `ValueError` at a concrete
input, so the unknown-preset error is not the module's only raising
operation. -/
theorem c6_counterexample :
    get_summer_weekends ⟨2024, 1, 15⟩ (some 2024) true 9 31
      = Except.error PyError.invalidDate := rfl

/-- Claim C6 (amended): any name whose normalization is not registered makes
`get_date_preset` fail with the unknown-preset `ValueError` carrying the
attempted name and the full list of valid names; the only other raising
operations are `get_summer_weekends`, which fails exactly when one of its two
constructed dates is invalid (on valid bounds it returns normally, and its
only error is the invalid-date one), and the day-range generators, which
raise `OverflowError` exactly when the requested window runs past `date.max`
(within range they return normally, and their only error is the overflow
one). -/
theorem c6_unknown_preset_error :
    (∀ (t : Ymd) (name : String),
        normalizeName name ∉ list_date_presets →
        get_date_preset t name
          = Except.error (PyError.unknownPreset name
              ["summer_weekends", "newly_available", "next_releases"])) ∧
    (∀ (t : Ymd) (y : Nat) (ob : Bool) (em ed : Nat),
        isValidYmd ⟨y, 6, 1⟩ = true → isValidYmd ⟨y, em, ed⟩ = true →
        ∃ l, get_summer_weekends t (some y) ob em ed = Except.ok l) ∧
    (∀ (t : Ymd) (yr : Option Nat) (ob : Bool) (em ed : Nat) (e : PyError),
        get_summer_weekends t yr ob em ed = Except.error e →
        e = PyError.invalidDate) ∧
    (∀ (t : Ymd) (d : Int),
        toRD (get_booking_window_end t) + d.toNat ≤ MAX_ORDINAL →
        ∃ l, get_newly_available_dates t d = Except.ok l ∧
          get_next_release_dates t d = Except.ok l) ∧
    (∀ (t : Ymd) (d : Int) (e : PyError),
        get_newly_available_dates t d = Except.error e ∨
        get_next_release_dates t d = Except.error e →
        e = PyError.overflowError) := by
  refine ⟨?_, ?_, ?_, ?_, ?_⟩
  · intro t name hn
    simp only [list_date_presets, DATE_PRESETS, List.map_cons, List.map_nil,
      List.mem_cons, List.not_mem_nil, or_false, not_or] at hn
    have hfind : DATE_PRESETS.find? (fun kv => kv.1 == normalizeName name)
        = none := by
      apply List.find?_eq_none.mpr
      intro kv hkv
      simp only [DATE_PRESETS, List.mem_cons, List.not_mem_nil, or_false]
        at hkv
      rcases hkv with h | h | h <;> subst h <;> intro hq <;> simp only at hq <;>
        rw [beq_iff_eq] at hq
      · exact hn.1 hq.symm
      · exact hn.2.1 hq.symm
      · exact hn.2.2 hq.symm
    simp only [get_date_preset, hfind]
    rfl
  · intro t y ob em ed h1 h2
    simp only [get_summer_weekends, resolveYear]
    rw [if_pos (by rw [h1, h2]; rfl)]
    exact ⟨_, rfl⟩
  · intro t yr ob em ed e h
    simp only [get_summer_weekends] at h
    by_cases hval : (isValidYmd ⟨resolveYear t yr, 6, 1⟩
        && isValidYmd ⟨resolveYear t yr, em, ed⟩) = true
    · rw [if_pos hval] at h
      simp at h
    · rw [if_neg hval] at h
      injection h with h
      exact h.symm
  · intro t d hov
    refine ⟨(List.range d.toNat).map
        (fun i => (toRD (get_booking_window_end t) + i,
          toRD (get_booking_window_end t) + i + 1)), ?_, ?_⟩
    · simp only [get_newly_available_dates]
      rw [if_neg (by omega)]
    · simp only [get_next_release_dates]
      rw [if_neg (by omega)]
  · intro t d e h
    rcases h with h | h <;>
      · simp only [get_newly_available_dates, get_next_release_dates] at h
        by_cases hov : 0 < d.toNat ∧
            MAX_ORDINAL < toRD (get_booking_window_end t) + d.toNat
        · rw [if_pos hov] at h
          injection h with h
          exact h.symm
        · rw [if_neg hov] at h
          simp at h

/-- Claim C6 witness: the spec's `resolve("nonexistent")` scenario. -/
theorem c6_witness :
    (normalizeName "nonexistent" ∉ list_date_presets) ∧
    get_date_preset ⟨2024, 1, 15⟩ "nonexistent"
      = Except.error (PyError.unknownPreset "nonexistent"
          ["summer_weekends", "newly_available", "next_releases"]) :=
  ⟨by decide,
    c6_unknown_preset_error.1 ⟨2024, 1, 15⟩ "nonexistent" (by decide)⟩

/-- Claim C10: every registered preset name is a fixed point of the lookup
normalization, and for every representable current date `get_date_preset`
succeeds on it, returning exactly what the registered generator produces with
its Python defaults. -/
theorem c10_registry_fixed_points (t : Ymd) (ht : todayOk t = true) :
    (∀ name ∈ list_date_presets, normalizeName name = name ∧
        ∃ r, get_date_preset t name = Except.ok r) ∧
    get_date_preset t "summer_weekends"
      = get_summer_weekends t none true 9 30 ∧
    get_date_preset t "newly_available" = get_newly_available_dates t 7 ∧
    get_date_preset t "next_releases" = get_next_release_dates t 14 := by
  have hbe := toRD_gbwe_le t ht
  have hna : ∃ r, get_newly_available_dates t 7 = Except.ok r := by
    refine ⟨(List.range (7 : Int).toNat).map
        (fun i => (toRD (get_booking_window_end t) + i,
          toRD (get_booking_window_end t) + i + 1)), ?_⟩
    simp only [get_newly_available_dates]
    rw [if_neg (by omega)]
  have hnr : ∃ r, get_next_release_dates t 14 = Except.ok r := by
    refine ⟨(List.range (14 : Int).toNat).map
        (fun i => (toRD (get_booking_window_end t) + i,
          toRD (get_booking_window_end t) + i + 1)), ?_⟩
    simp only [get_next_release_dates]
    rw [if_neg (by omega)]
  have hsw : ∃ r, get_summer_weekends t none true 9 30 = Except.ok r := by
    simp only [todayOk, isValidYmd, Bool.and_eq_true, decide_eq_true_eq] at ht
    have h6 : daysInMonth (if t.month < 10 then t.year else t.year + 1) 6
        = 30 := rfl
    have h9 : daysInMonth (if t.month < 10 then t.year else t.year + 1) 9
        = 30 := rfl
    simp only [get_summer_weekends, resolveYear]
    rw [if_pos ?hcond]
    case hcond =>
      have hY1 : 1 ≤ (if t.month < 10 then t.year else t.year + 1) := by
        split <;> omega
      have hY2 : (if t.month < 10 then t.year else t.year + 1) ≤ 9999 := by
        split <;> omega
      simp only [isValidYmd, Bool.and_eq_true, decide_eq_true_eq, and_assoc]
      refine ⟨hY1, hY2, by omega, by omega, by omega, by rw [h6]; omega,
        hY1, hY2, by omega, by omega, by omega, by rw [h9]⟩
    exact ⟨_, rfl⟩
  obtain ⟨r, hr⟩ := hsw
  obtain ⟨ra, hra⟩ := hna
  obtain ⟨rr, hrr⟩ := hnr
  refine ⟨?_, rfl, rfl, rfl⟩
  intro name hname
  simp only [list_date_presets, DATE_PRESETS, List.map_cons, List.map_nil,
    List.mem_cons, List.not_mem_nil, or_false] at hname
  rcases hname with h | h | h <;> subst h
  · exact ⟨by decide, r, hr⟩
  · exact ⟨by decide, ra, hra⟩
  · exact ⟨by decide, rr, hrr⟩

/-- Claim C10 witness: today = 2024-01-15. -/
theorem c10_witness :
    todayOk ⟨2024, 1, 15⟩ = true ∧
    (∀ name ∈ list_date_presets, normalizeName name = name ∧
        ∃ r, get_date_preset ⟨2024, 1, 15⟩ name = Except.ok r) :=
  ⟨by decide, (c10_registry_fixed_points ⟨2024, 1, 15⟩ (by decide)).1⟩

end Camply
